import Mathlib

/-!
Verification of the selector / live-reload subsystem of the tetragon
tracing package against its specification.

The development shallowly embeds the Go source of
`pkg/sensors/tracing/selectors_test.go` and `pkg/sensors/tracing/options.go`:
pure Go functions become Lean functions, Go maps become association lists,
and Go errors become `Option` / `Except` results.  Components of the
subsystem whose implementation is outside the sampled files (the selector
compiler, the reload coordinator and the in-kernel matcher) are modelled
from the specification text; each such definition carries a doc comment
starting with `Modelled from the spec:`.
-/

namespace Tetragon

/-! ## The testCases table of selectors_test.go

Whence values are Go `int`, embedded as `Int`; the expected-argument maps
are Go `map[uint64]int` counters, embedded as association lists from the
whence value to its observed frequency. -/

/-- One test case of the table: a series of lseek whence values and the
expected frequency map of observed events. -/
structure testCase where
  lseekOpsVals : List Int
  expectedArgs : List (Int × Nat)
deriving DecidableEq

/-- One entry of the testCases table: the operator and filter values used to
generate the spec, plus the cases to test against that spec. -/
structure selectorTestSpec where
  specOperator : String
  specFilterVals : List (List Int)
  tests : List testCase
deriving DecidableEq

/-- The testCases table, transcribed from selectors_test.go. -/
def testCases : List selectorTestSpec := [
  { specOperator := "Equal",
    specFilterVals := [[4443], [9999]],
    tests := [
      { lseekOpsVals := [4444, 4443], expectedArgs := [(4443, 1)] },
      { lseekOpsVals := [4443, 4444, 4443], expectedArgs := [(4443, 2)] },
      { lseekOpsVals := [9999, 4443], expectedArgs := [(4443, 1), (9999, 1)] },
      { lseekOpsVals := [9999, 4444], expectedArgs := [(9999, 1)] }] },
  { specOperator := "Equal",
    specFilterVals := [[4444], [9999]],
    tests := [
      { lseekOpsVals := [4444, 4443], expectedArgs := [(4444, 1)] },
      { lseekOpsVals := [4443, 4444, 4443], expectedArgs := [(4444, 1)] },
      { lseekOpsVals := [9999, 4443], expectedArgs := [(9999, 1)] },
      { lseekOpsVals := [9999, 4444], expectedArgs := [(9999, 1), (4444, 1)] }] },
  { specOperator := "InMap",
    specFilterVals := [[4443], [9999]],
    tests := [
      { lseekOpsVals := [4444, 4443], expectedArgs := [(4443, 1)] },
      { lseekOpsVals := [4443, 4444, 4443], expectedArgs := [(4443, 2)] },
      { lseekOpsVals := [9999, 4443], expectedArgs := [(4443, 1), (9999, 1)] },
      { lseekOpsVals := [9999, 4444], expectedArgs := [(9999, 1)] }] },
  { specOperator := "InMap",
    specFilterVals := [[4444], [9999]],
    tests := [
      { lseekOpsVals := [4444, 4443], expectedArgs := [(4444, 1)] },
      { lseekOpsVals := [4443, 4444, 4443], expectedArgs := [(4444, 1)] },
      { lseekOpsVals := [9999, 4443], expectedArgs := [(9999, 1)] },
      { lseekOpsVals := [9999, 4444], expectedArgs := [(9999, 1), (4444, 1)] }] },
  { specOperator := "Equal",
    specFilterVals := [[8888], [8889], [4443]],
    tests := [
      { lseekOpsVals := [4444, 4443], expectedArgs := [(4443, 1)] }] }]

/-! ## OR-of-alternatives matching semantics

Each inner list of `specFilterVals` becomes one SelectorSpec alternative
(selectors in a list are OR-ed); within one alternative, the values under
one operator are OR-ed as well.  An event with whence value `v` therefore
matches iff `v` is a member of at least one inner value list. -/

/-- An event value matches the generated spec iff it belongs to at least one
of the alternative value lists (OR of alternatives, OR of values). -/
def selectorsMatch (specFilterVals : List (List Int)) (v : Int) : Bool :=
  specFilterVals.any (fun l => l.contains v)

/-- Lookup in an association-list counter map (Go map semantics: `none`
means the key is absent). -/
def alGet (al : List (Int × Nat)) (k : Int) : Option Nat :=
  (al.find? (fun p => p.1 == k)).map (fun p => p.2)

/-- The frequency with which value `v` is reported: once per call iff the
value matches the spec. -/
def freqCount (specFilterVals : List (List Int)) (ops : List Int) (v : Int) : Nat :=
  if selectorsMatch specFilterVals v then ops.count v else 0

/-- The entry of the observed counter map for value `v`: absent when the
value is never reported. -/
def freqOpt (specFilterVals : List (List Int)) (ops : List Int) (v : Int) : Option Nat :=
  let c := freqCount specFilterVals ops v
  if c = 0 then none else some c

/-- A decidable complete check that an expected map agrees with the matching
semantics: it is enough to check the keys of the map and the op values,
since any other value is absent from both sides. -/
def freqCheck (a : List (Int × Nat)) (specFilterVals : List (List Int))
    (ops : List Int) : Bool :=
  ((a.map Prod.fst) ++ ops).all (fun k => alGet a k == freqOpt specFilterVals ops k)

/-- The whole-table decidable check used to settle the table claims. -/
def tableCheck : Bool :=
  testCases.all (fun e => e.tests.all (fun tc =>
    freqCheck tc.expectedArgs e.specFilterVals tc.lseekOpsVals))

theorem alGet_eq_none_of_not_mem (a : List (Int × Nat)) (v : Int)
    (h : v ∉ a.map Prod.fst) : alGet a v = none := by
  unfold alGet
  rw [List.find?_eq_none.mpr]
  · rfl
  · intro x hx
    simp only [beq_iff_eq]
    intro hxv
    exact h (List.mem_map.mpr ⟨x, hx, hxv⟩)

theorem freqOpt_eq_none_of_not_mem (specFilterVals : List (List Int))
    (ops : List Int) (v : Int) (h : v ∉ ops) :
    freqOpt specFilterVals ops v = none := by
  unfold freqOpt freqCount
  have hc : ops.count v = 0 := List.count_eq_zero.mpr h
  simp [hc]

theorem freqCheck_complete (a : List (Int × Nat)) (specFilterVals : List (List Int))
    (ops : List Int) (h : freqCheck a specFilterVals ops = true) :
    ∀ v : Int, alGet a v = freqOpt specFilterVals ops v := by
  intro v
  by_cases hv : v ∈ (a.map Prod.fst) ++ ops
  · have hb := List.all_eq_true.mp h v hv
    exact eq_of_beq hb
  · rw [List.mem_append] at hv
    push_neg at hv
    rw [alGet_eq_none_of_not_mem a v hv.1,
        freqOpt_eq_none_of_not_mem specFilterVals ops v hv.2]

/-- C1: for every entry of the testCases table and every testCase in it,
expectedArgs equals the frequency map computed by the OR-of-alternatives
matching semantics: a value `v` in lseekOpsVals is counted once per call iff
`v` is a member of at least one of the alternative value lists of the entry,
and a value in no list is absent from the map. -/
theorem testCases_expectedArgs_correct :
    ∀ e ∈ testCases, ∀ tc ∈ e.tests, ∀ v : Int,
      alGet tc.expectedArgs v = freqOpt e.specFilterVals tc.lseekOpsVals v := by
  intro e he tc htc
  apply freqCheck_complete
  have hall : tableCheck = true := by decide
  unfold tableCheck at hall
  exact List.all_eq_true.mp (List.all_eq_true.mp hall e he) tc htc

/-- Witness for C1 at the first entry and first test of the table. -/
theorem testCases_expectedArgs_correct_witness :
    alGet [((4443 : Int), 1)] 4443 = freqOpt [[4443], [9999]] [4444, 4443] 4443 :=
  testCases_expectedArgs_correct
    { specOperator := "Equal",
      specFilterVals := [[4443], [9999]],
      tests := [
        { lseekOpsVals := [4444, 4443], expectedArgs := [(4443, 1)] },
        { lseekOpsVals := [4443, 4444, 4443], expectedArgs := [(4443, 2)] },
        { lseekOpsVals := [9999, 4443], expectedArgs := [(4443, 1), (9999, 1)] },
        { lseekOpsVals := [9999, 4444], expectedArgs := [(9999, 1)] }] }
    (by decide)
    { lseekOpsVals := [4444, 4443], expectedArgs := [(4443, 1)] }
    (by decide) 4443

/-- C2: every pair of testCases entries with equal specFilterVals in which
one uses the InMap operator and the other the Equal operator has the same
test sequences and expected count maps: set membership over a value set is
observationally equivalent to equality over the same value set. -/
theorem inMap_equal_same_tests :
    ∀ e1 ∈ testCases, ∀ e2 ∈ testCases,
      e1.specFilterVals = e2.specFilterVals →
      e1.specOperator = "InMap" → e2.specOperator = "Equal" →
      e1.tests = e2.tests := by decide

/-- Witness for C2 at the InMap and Equal entries over values [[4443],[9999]]. -/
theorem inMap_equal_same_tests_witness :
    selectorTestSpec.tests
      { specOperator := "InMap",
        specFilterVals := [[4443], [9999]],
        tests := [
          { lseekOpsVals := [4444, 4443], expectedArgs := [(4443, 1)] },
          { lseekOpsVals := [4443, 4444, 4443], expectedArgs := [(4443, 2)] },
          { lseekOpsVals := [9999, 4443], expectedArgs := [(4443, 1), (9999, 1)] },
          { lseekOpsVals := [9999, 4444], expectedArgs := [(9999, 1)] }] } =
    selectorTestSpec.tests
      { specOperator := "Equal",
        specFilterVals := [[4443], [9999]],
        tests := [
          { lseekOpsVals := [4444, 4443], expectedArgs := [(4443, 1)] },
          { lseekOpsVals := [4443, 4444, 4443], expectedArgs := [(4443, 2)] },
          { lseekOpsVals := [9999, 4443], expectedArgs := [(4443, 1), (9999, 1)] },
          { lseekOpsVals := [9999, 4444], expectedArgs := [(9999, 1)] }] } :=
  inMap_equal_same_tests _ (by decide) _ (by decide) rfl rfl rfl

/-! ## selectorsFromWhenceVals (selectors_test.go) -/

/-- v1alpha1.PIDSelector: PID values are Go uint32, embedded as Nat. -/
structure PIDSelector where
  Operator : String
  IsNamespacePID : Bool
  FollowForks : Bool
  Values : List Nat
deriving DecidableEq

/-- v1alpha1.ArgSelector. -/
structure ArgSelector where
  Index : Nat
  Operator : String
  Values : List String
deriving DecidableEq

/-- v1alpha1.KProbeSelector, restricted to the fields the sampled source
uses (MatchPIDs and MatchArgs; the other match dimensions stay zero). -/
structure KProbeSelector where
  MatchPIDs : List PIDSelector := []
  MatchArgs : List ArgSelector := []
deriving DecidableEq

/-- selectorsFromWhenceVals, embedded from selectors_test.go.  The caller
pid (Go observer.GetMyPid) is passed explicitly.  Each inner whence-value
list becomes one selector with the caller-PID match and one MatchArgs
entry whose values are the decimal strings of the list; when the list of
lists is empty a single selector with only the PID match is produced. -/
def selectorsFromWhenceVals (mypid : Nat) (filterWhenceVals : List (List Int))
    (whenceIdx : Nat) (filterOperator : String) : List KProbeSelector :=
  let myPidMatchPIDs : List PIDSelector :=
    [{ Operator := "In", IsNamespacePID := false, FollowForks := true,
       Values := [mypid] }]
  let sels := filterWhenceVals.foldl
    (fun sels whenceVals =>
      sels ++ [{ MatchPIDs := myPidMatchPIDs,
                 MatchArgs := [{ Index := whenceIdx, Operator := filterOperator,
                                 Values := whenceVals.map (fun v => toString v) }] }])
    []
  if sels.isEmpty then [{ MatchPIDs := myPidMatchPIDs }] else sels

theorem foldl_append_singleton {α β : Type} (f : α → β) (l : List α)
    (init : List β) :
    l.foldl (fun acc x => acc ++ [f x]) init = init ++ l.map f := by
  induction l generalizing init with
  | nil => simp
  | cons a l ih => simp [ih]

/-- C10: for a non-empty filterWhenceVals, selectorsFromWhenceVals returns
exactly one KProbeSelector per inner value list, each carrying the
caller-PID MatchPIDs entry (operator In, host namespace, follow-forks
true) and exactly one MatchArgs entry with the given index and operator
whose values are the decimal strings of the inner list in order; for an
empty filterWhenceVals it returns exactly one selector with only the PID
match and no argument constraint. -/
theorem selectorsFromWhenceVals_spec (mypid : Nat) (fv : List (List Int))
    (whenceIdx : Nat) (op : String) :
    selectorsFromWhenceVals mypid fv whenceIdx op =
      if fv.isEmpty then
        [{ MatchPIDs := [{ Operator := "In", IsNamespacePID := false,
                           FollowForks := true, Values := [mypid] }],
           MatchArgs := [] }]
      else
        fv.map (fun wv =>
          { MatchPIDs := [{ Operator := "In", IsNamespacePID := false,
                            FollowForks := true, Values := [mypid] }],
            MatchArgs := [{ Index := whenceIdx, Operator := op,
                            Values := wv.map (fun v => toString v) }] }) := by
  cases fv with
  | nil => rfl
  | cons a l =>
    simp only [selectorsFromWhenceVals, foldl_append_singleton, List.nil_append,
      List.isEmpty_cons, List.map_cons]

/-! ## getKprobeOptions (options.go) -/

/-- v1alpha1.OptionSpec. -/
structure OptionSpec where
  Name : String
  Value : String
deriving DecidableEq

/-- The kprobeOptions struct of options.go. -/
structure kprobeOptions where
  DisableKprobeMulti : Bool := false
deriving DecidableEq

/-- option.KeyDisableKprobeMulti, the name of the local
disable-kprobe-multi option. -/
def keyDisableKprobeMulti : String := "disable-kprobe-multi"

/-- strconv.ParseBool: accepts the twelve Go literals, rejects anything
else. -/
def parseBool (s : String) : Option Bool :=
  if s = "1" ∨ s = "t" ∨ s = "T" ∨ s = "true" ∨ s = "TRUE" ∨ s = "True" then
    some true
  else if s = "0" ∨ s = "f" ∨ s = "F" ∨ s = "false" ∨ s = "FALSE" ∨ s = "False" then
    some false
  else none

/-- The error message built by getKprobeOptions when setting an option
fails (the strconv error text is abstracted to the offending value). -/
def optErrMsg (v : String) : String :=
  "failed to set option " ++ keyDisableKprobeMulti ++ ": parsing " ++ v

/-- The loop of getKprobeOptions over the option specs.  The opts table of
the source holds the single entry for KeyDisableKprobeMulti, so the inner
loop reduces to one name comparison; on a set error the Go function
returns a nil options pointer and the error. -/
def getKprobeOptionsLoop (options : kprobeOptions) :
    List OptionSpec → Except String kprobeOptions
  | [] => Except.ok options
  | spec :: rest =>
    if keyDisableKprobeMulti = spec.Name then
      match parseBool spec.Value with
      | some b => getKprobeOptionsLoop { DisableKprobeMulti := b } rest
      | none => Except.error (optErrMsg spec.Value)
    else getKprobeOptionsLoop options rest

/-- getKprobeOptions, embedded from options.go. -/
def getKprobeOptions (specs : List OptionSpec) : Except String kprobeOptions :=
  getKprobeOptionsLoop {} specs

/-- The first spec whose name is KeyDisableKprobeMulti and whose value
strconv.ParseBool rejects. -/
def firstBadOption (specs : List OptionSpec) : Option OptionSpec :=
  specs.find? (fun s => keyDisableKprobeMulti == s.Name && (parseBool s.Value).isNone)

/-- The parsed value of the last spec named KeyDisableKprobeMulti, starting
from a given value (false for the zero options struct). -/
def lastParsedOption (acc : Bool) (specs : List OptionSpec) : Bool :=
  specs.foldl
    (fun acc s =>
      if keyDisableKprobeMulti = s.Name then (parseBool s.Value).getD acc else acc)
    acc

theorem getKprobeOptionsLoop_spec (options : kprobeOptions)
    (specs : List OptionSpec) :
    getKprobeOptionsLoop options specs =
      match firstBadOption specs with
      | some s => Except.error (optErrMsg s.Value)
      | none =>
        Except.ok { DisableKprobeMulti :=
                      lastParsedOption options.DisableKprobeMulti specs } := by
  induction specs generalizing options with
  | nil => rfl
  | cons s rest ih =>
    unfold getKprobeOptionsLoop firstBadOption lastParsedOption
    by_cases hn : keyDisableKprobeMulti = s.Name
    · cases hb : parseBool s.Value with
      | some b =>
        simp only [hn, if_pos rfl, hb]
        rw [ih]
        unfold firstBadOption lastParsedOption
        simp [List.find?, hn, hb]
      | none =>
        simp only [hn, if_pos rfl, hb]
        simp [List.find?, hn, hb]
    · simp only [if_neg hn]
      rw [ih]
      unfold firstBadOption lastParsedOption
      have hn2 : (keyDisableKprobeMulti == s.Name) = false := by
        simp [hn]
      simp [List.find?, hn2, hn]

/-- C8: getKprobeOptions fails iff some spec named KeyDisableKprobeMulti
has a value strconv.ParseBool rejects, with the error naming the first
such spec in order; otherwise it succeeds with DisableKprobeMulti equal to
the parsed value of the last spec with that name (false when none has it),
and specs with any other name are ignored without error. -/
theorem getKprobeOptions_spec (specs : List OptionSpec) :
    getKprobeOptions specs =
      match firstBadOption specs with
      | some s => Except.error (optErrMsg s.Value)
      | none => Except.ok { DisableKprobeMulti := lastParsedOption false specs } :=
  getKprobeOptionsLoop_spec {} specs

/-! ## cloneTesterInfo.ParseLine (selectors_test.go)

The three patterns are literal text interleaved with digit capture groups.
Because every literal that follows a capture group starts with a non-digit
character, greedy digit matching without backtracking computes exactly the
Go regexp submatches, and scanning start positions left to right gives the
leftmost match of FindStringSubmatch. -/

/-- Consume a literal prefix, returning the rest of the input on success. -/
def stripLit : List Char → List Char → Option (List Char)
  | [], s => some s
  | _ :: _, [] => none
  | l :: ls, c :: cs => if l = c then stripLit ls cs else none

/-- Split off the maximal leading run of decimal digits. -/
def takeDigits : List Char → List Char × List Char
  | [] => ([], [])
  | c :: cs =>
    if c.isDigit then
      let (d, r) := takeDigits cs
      (c :: d, r)
    else ([], c :: cs)

/-- Match the tail of a pattern: for each literal in the list, one
non-empty digit group followed by that literal; input left over after the
last literal is ignored (the patterns are not anchored at the end). -/
def matchGroups : List (List Char) → List Char → Option (List (List Char))
  | [], _ => some []
  | lit :: lits, s =>
    match takeDigits s with
    | ([], _) => none
    | (d, rest) =>
      match stripLit lit rest with
      | none => none
      | some rest2 => (matchGroups lits rest2).map (fun gs => d :: gs)

/-- Match the full pattern (leading literal, then the digit groups) at the
start of the input. -/
def matchPatternAt (lead : List Char) (lits : List (List Char))
    (s : List Char) : Option (List (List Char)) :=
  match stripLit lead s with
  | none => none
  | some rest => matchGroups lits rest

/-- regexp.FindStringSubmatch for these patterns, returning the captured
digit groups of the leftmost match. -/
def findStringSubmatch (lead : List Char) (lits : List (List Char)) :
    List Char → Option (List (List Char))
  | [] => matchPatternAt lead lits []
  | c :: rest =>
    match matchPatternAt lead lits (c :: rest) with
    | some gs => some gs
    | none => findStringSubmatch lead lits rest

/-- The numeric value of a digit string. -/
def digitsToNat (ds : List Char) : Nat :=
  ds.foldl (fun n c => n * 10 + (c.toNat - 48)) 0

/-- strconv.ParseUint with base 10 and bit size 32, applied to a captured
digit group: the captures are non-empty digit strings, so the only failure
is a value outside 32 bits. -/
def parseUint32 (ds : List Char) : Option Nat :=
  let v := digitsToNat ds
  if v < 4294967296 then some v else none

/-- The parentRe pattern. -/
def parentLead : List Char := "parent:\t\t(pid:".data

/-- The literals following the three capture groups of parentRe. -/
def parentLits : List (List Char) :=
  [", tid:".data, ", ppid:".data, ")\tstarts".data]

/-- The cloneChild1Re pattern. -/
def cloneChild1Lead : List Char := "Child 1:\t(pid:".data

/-- The literals following the three capture groups of cloneChild1Re. -/
def cloneChild1Lits : List (List Char) :=
  [", tid:".data, ", ppid:".data, ")\topen".data]

/-- The cloneThread1Re pattern. -/
def cloneThread1Lead : List Char := "Thread 1:\t(pid:".data

/-- The literals following the three capture groups of cloneThread1Re. -/
def cloneThread1Lits : List (List Char) :=
  [", tid:".data, ", ppid:".data, ")\topen".data]

/-- The cloneTesterInfo record: all fields are Go uint32, embedded as Nat,
zero initialized. -/
structure cloneTesterInfo where
  parentPid : Nat := 0
  parentTid : Nat := 0
  child1Pid : Nat := 0
  child1Tid : Nat := 0
  parentChild1Pid : Nat := 0
  thread1Pid : Nat := 0
  thread1Tid : Nat := 0
  parentThread1Pid : Nat := 0
deriving DecidableEq

/-- One parse-and-assign step of ParseLine: on success the setter is
applied, on failure the record is unchanged; the second component is the
err variable after this statement. -/
def parseAssign (cti : cloneTesterInfo) (ds : List Char)
    (set : cloneTesterInfo → Nat → cloneTesterInfo) : cloneTesterInfo × Bool :=
  match parseUint32 ds with
  | some v => (set cti v, false)
  | none => (cti, true)

/-- cloneTesterInfo.ParseLine, embedded from selectors_test.go.  The Bool
component is whether the returned error is non-nil; the Go err variable is
overwritten by every ParseUint call, so only the last call of the matched
branch decides it. -/
def ParseLine (cti : cloneTesterInfo) (l : String) : cloneTesterInfo × Bool :=
  match findStringSubmatch parentLead parentLits l.data with
  | some (m1 :: m2 :: _) =>
    let (cti, _) := parseAssign cti m1 (fun c v => { c with parentPid := v })
    parseAssign cti m2 (fun c v => { c with parentTid := v })
  | some _ => (cti, false)
  | none =>
    match findStringSubmatch cloneChild1Lead cloneChild1Lits l.data with
    | some (m1 :: m2 :: m3 :: _) =>
      let (cti, _) := parseAssign cti m1 (fun c v => { c with child1Pid := v })
      let (cti, _) := parseAssign cti m2 (fun c v => { c with child1Tid := v })
      parseAssign cti m3 (fun c v => { c with parentChild1Pid := v })
    | some _ => (cti, false)
    | none =>
      match findStringSubmatch cloneThread1Lead cloneThread1Lits l.data with
      | some (m1 :: m2 :: m3 :: _) =>
        let (cti, _) := parseAssign cti m1 (fun c v => { c with thread1Pid := v })
        let (cti, _) := parseAssign cti m2 (fun c v => { c with thread1Tid := v })
        parseAssign cti m3 (fun c v => { c with parentThread1Pid := v })
      | some _ => (cti, false)
      | none => (cti, false)

/-- C9: ParseLine returns only the error of the last ParseUint of the
matched branch.  First conjunct: a parent line whose pid capture exceeds
32 bits while the tid capture parses returns no error and leaves parentPid
unmodified, silently producing a partially parsed record.  Second
conjunct: when instead the last capture overflows, the error is reported.
Third conjunct: a line matching no pattern returns no error and changes no
field. -/
theorem parseLine_last_error_only (cti : cloneTesterInfo) :
    ParseLine cti "parent:\t\t(pid:4294967296, tid:5, ppid:7)\tstarts" =
      ({ cti with parentTid := 5 }, false) ∧
    ParseLine cti "parent:\t\t(pid:5, tid:4294967296, ppid:7)\tstarts" =
      ({ cti with parentPid := 5 }, true) ∧
    ParseLine cti "no pattern matches this line" = (cti, false) := by
  refine ⟨?_, ?_, ?_⟩ <;> rfl

/-! ## The selector compiler and the live reload coordinator

The compiler (spec 4.2, 4.4, 4.5) and the reload coordinator (spec 4.6)
are not part of the sampled source files; only their test callers are.
They are modelled from the specification text. -/

/-- Modelled from the spec: the operator table (spec 4.2) resolves a named
operator to its code and fails with UnknownOperatorError for an
unrecognized name.  The modelled table holds the operators the sampled
tests use. -/
def operatorCode (op : String) : Except String Nat :=
  if op = "Equal" then Except.ok 1
  else if op = "InMap" then Except.ok 2
  else if op = "In" then Except.ok 3
  else Except.error ("unknown operator: " ++ op)

/-- Modelled from the spec: the match-value encoder (spec 4.1) serializes
one literal into a fixed, self-delimiting numeric form. -/
def encodeValue (s : String) : List Nat :=
  s.length :: s.data.map Char.toNat

/-- Modelled from the spec: the argument filter compiler (spec 4.4)
produces index, operator code and encoded values. -/
def compileArg (a : ArgSelector) : Except String (List Nat) :=
  (operatorCode a.Operator).map (fun code =>
    a.Index :: code :: a.Values.length ::
      a.Values.foldr (fun s acc => encodeValue s ++ acc) [])

/-- Modelled from the spec: sequential compilation of the argument
selectors of one SelectorSpec. -/
def compileArgs : List ArgSelector → Except String (List Nat)
  | [] => Except.ok []
  | a :: rest => do
    let d ← compileArg a
    let ds ← compileArgs rest
    Except.ok (d ++ ds)

/-- Modelled from the spec: the PID filter compiler (spec 4.3) encodes
operator, namespace flag, follow-forks flag and the PID values. -/
def compilePid (p : PIDSelector) : Except String (List Nat) :=
  (operatorCode p.Operator).map (fun code =>
    code :: (if p.IsNamespacePID then 1 else 0) ::
      (if p.FollowForks then 1 else 0) :: p.Values.length :: p.Values)

/-- Modelled from the spec: sequential compilation of the PID selectors of
one SelectorSpec. -/
def compilePids : List PIDSelector → Except String (List Nat)
  | [] => Except.ok []
  | p :: rest => do
    let d ← compilePid p
    let ds ← compilePids rest
    Except.ok (d ++ ds)

/-- Modelled from the spec: one SelectorSpec compiles to its PID
descriptors, the count of argument descriptors, and the argument
descriptors (spec 4.5). -/
def compileSelector (s : KProbeSelector) : Except String (List Nat) := do
  let pd ← compilePids s.MatchPIDs
  let ad ← compileArgs s.MatchArgs
  Except.ok (pd ++ s.MatchArgs.length :: ad)

/-- Modelled from the spec: sequential encoding of each SelectorSpec,
terminated by a sentinel (spec 4.5). -/
def compileSelectorsList : List KProbeSelector → Except String (List Nat)
  | [] => Except.ok [0]
  | s :: rest => do
    let d ← compileSelector s
    let ds ← compileSelectorsList rest
    Except.ok (d ++ ds)

/-- Modelled from the spec: the selector set compiler (spec 4.5) takes the
ordered SelectorSpec list, the argument indices of the attachment and the
caller identity context, and produces one CompiledSelectorBlob. -/
def compileSelectors (sels : List KProbeSelector) (args : List Nat)
    (ctx : Nat) : Except String (List Nat) := do
  let body ← compileSelectorsList sels
  Except.ok (ctx :: args.length :: (args ++ body))

/-- C5: compiling two SelectorSpec lists that are equal in content with
the same ArgumentSpec list and identity context produces byte-identical
CompiledSelectorBlobs: the modelled compiler is a pure function of the
content of its input. -/
theorem compileSelectors_deterministic (s1 s2 : List KProbeSelector)
    (args : List Nat) (ctx : Nat) (h : s1 = s2) :
    compileSelectors s1 args ctx = compileSelectors s2 args ctx := by
  rw [h]

/-- Witness for C5 at a concrete selector list. -/
theorem compileSelectors_deterministic_witness :
    compileSelectors
        [{ MatchPIDs := [{ Operator := "In", IsNamespacePID := false,
                           FollowForks := true, Values := [7] }],
           MatchArgs := [{ Index := 2, Operator := "Equal",
                           Values := ["4443"] }] }] [2] 7 =
      compileSelectors
        [{ MatchPIDs := [{ Operator := "In", IsNamespacePID := false,
                           FollowForks := true, Values := [7] }],
           MatchArgs := [{ Index := 2, Operator := "Equal",
                           Values := ["4443"] }] }] [2] 7 :=
  compileSelectors_deterministic _ _ [2] 7 rfl

/-- The state of one loaded tracepoint sensor with its attachment: the
kernel-attached programs and the active CompiledSelectorBlob. -/
structure TpState where
  progs : List Nat
  blob : List Nat
deriving DecidableEq

/-- Modelled from the spec: ReloadGenericTracepointSelectors (spec 4.6)
recompiles the selector set of an already attached program and publishes
the candidate blob; a failed compilation returns the error and publishes
nothing, and the attached programs are never touched. -/
def ReloadGenericTracepointSelectors (st : TpState)
    (sels : List KProbeSelector) (args : List Nat) (ctx : Nat) :
    TpState × Option String :=
  match compileSelectors sels args ctx with
  | Except.error e => (st, some e)
  | Except.ok b => ({ st with blob := b }, none)

/-- C4: for a sensor with exactly one program, a successful reload leaves
the number of kernel-attached programs unchanged at one. -/
theorem reload_preserves_progs_count (st : TpState)
    (sels : List KProbeSelector) (args : List Nat) (ctx : Nat)
    (h1 : st.progs.length = 1)
    (_h2 : (ReloadGenericTracepointSelectors st sels args ctx).2 = none) :
    (ReloadGenericTracepointSelectors st sels args ctx).1.progs.length = 1 := by
  unfold ReloadGenericTracepointSelectors
  cases hc : compileSelectors sels args ctx <;> simp <;> exact h1

/-- Witness for C4 at a concrete state and a compiling selector list. -/
theorem reload_preserves_progs_count_witness :
    (ReloadGenericTracepointSelectors { progs := [1], blob := [] }
        [{ MatchPIDs := [{ Operator := "In", IsNamespacePID := false,
                           FollowForks := true, Values := [7] }],
           MatchArgs := [{ Index := 2, Operator := "Equal",
                           Values := ["4443"] }] }] [2] 7).1.progs.length = 1 :=
  reload_preserves_progs_count { progs := [1], blob := [] } _ [2] 7 rfl rfl

/-- C6: a reload whose compilation fails leaves the previously active blob
and the whole attachment state unchanged and returns the compilation
error to the caller. -/
theorem reload_failed_compile_no_change (st : TpState)
    (sels : List KProbeSelector) (args : List Nat) (ctx : Nat) (e : String)
    (h : compileSelectors sels args ctx = Except.error e) :
    ReloadGenericTracepointSelectors st sels args ctx = (st, some e) := by
  unfold ReloadGenericTracepointSelectors
  rw [h]

/-- Witness for C6 at an unknown operator name. -/
theorem reload_failed_compile_no_change_witness :
    ReloadGenericTracepointSelectors { progs := [1], blob := [2] }
        [{ MatchPIDs := [],
           MatchArgs := [{ Index := 0, Operator := "Bogus", Values := [] }] }]
        [] 0 =
      ({ progs := [1], blob := [2] }, some "unknown operator: Bogus") :=
  reload_failed_compile_no_change { progs := [1], blob := [2] } _ [] 0
    "unknown operator: Bogus" rfl

/-! ## Follow-forks semantics of the kernel matcher

The kernel matcher and the process-tree collaborator are external to the
sampled source; their follow-forks behavior is modelled from the spec
(spec 4.3 and the glossary). -/

/-- Modelled from the spec: the observable process history the matcher
reacts to: probe events, forks, and policy replacement. -/
inductive ProcEvent where
  | probe (pid : Nat)
  | fork (parent child : Nat)
  | replacePolicy
deriving DecidableEq

/-- Modelled from the spec: the PID-match state of one compiled
attachment: the compiled PID value list, the follow-forks flag, and the
pre-approved lineage set maintained with the process-tree collaborator. -/
structure MatcherState where
  pidValues : List Nat
  followForks : Bool
  approved : List Nat
deriving DecidableEq

/-- Modelled from the spec: a process matches the PID descriptor when it
satisfies the value list or, under follow-forks, when its lineage was
pre-approved. -/
def pidMatches (st : MatcherState) (p : Nat) : Bool :=
  st.pidValues.contains p || (st.followForks && st.approved.contains p)

/-- Modelled from the spec: one step of the matcher: a matching probe
event pre-approves the process under follow-forks; a fork from an
approved parent pre-approves the child; replacing the policy clears the
pre-approvals. -/
def stepEvent (st : MatcherState) : ProcEvent → MatcherState
  | ProcEvent.probe p =>
    if pidMatches st p && st.followForks then
      { st with approved := p :: st.approved }
    else st
  | ProcEvent.fork parent child =>
    if st.followForks && st.approved.contains parent then
      { st with approved := child :: st.approved }
    else st
  | ProcEvent.replacePolicy => { st with approved := [] }

/-- Running the matcher over a sequence of events. -/
def runEvents (st : MatcherState) (evs : List ProcEvent) : MatcherState :=
  evs.foldl stepEvent st

theorem stepEvent_pidValues (st : MatcherState) (ev : ProcEvent) :
    (stepEvent st ev).pidValues = st.pidValues := by
  cases ev <;> simp only [stepEvent] <;> split <;> rfl

theorem stepEvent_followForks (st : MatcherState) (ev : ProcEvent) :
    (stepEvent st ev).followForks = st.followForks := by
  cases ev <;> simp only [stepEvent] <;> split <;> rfl

theorem stepEvent_approved_mono (st : MatcherState) (ev : ProcEvent)
    (hev : ev ≠ ProcEvent.replacePolicy) (c : Nat) (hc : c ∈ st.approved) :
    c ∈ (stepEvent st ev).approved := by
  cases ev with
  | probe p =>
    simp only [stepEvent]
    split
    · exact List.mem_cons_of_mem _ hc
    · exact hc
  | fork parent child =>
    simp only [stepEvent]
    split
    · exact List.mem_cons_of_mem _ hc
    · exact hc
  | replacePolicy => exact absurd rfl hev

theorem runEvents_followForks (evs : List ProcEvent) (st : MatcherState) :
    (runEvents st evs).followForks = st.followForks := by
  induction evs generalizing st with
  | nil => rfl
  | cons ev rest ih =>
    show (runEvents (stepEvent st ev) rest).followForks = st.followForks
    rw [ih, stepEvent_followForks]

theorem runEvents_approved_mono (evs : List ProcEvent) (st : MatcherState)
    (hnoR : ProcEvent.replacePolicy ∉ evs) (c : Nat)
    (hc : c ∈ st.approved) : c ∈ (runEvents st evs).approved := by
  induction evs generalizing st with
  | nil => exact hc
  | cons ev rest ih =>
    rw [List.mem_cons] at hnoR
    push_neg at hnoR
    exact ih (stepEvent st ev) hnoR.2
      (stepEvent_approved_mono st ev (fun h => hnoR.1 h.symm) c hc)

/-- C7: with follow-forks compiled in, once a process matches, a child it
subsequently spawns is matched by every subsequent event without
satisfying the PID value list, and the pre-approval persists over any
event sequence that does not replace the policy. -/
theorem followForks_descendant_matches (st : MatcherState) (p c : Nat)
    (evs : List ProcEvent) (hff : st.followForks = true)
    (hp : pidMatches st p = true)
    (hnoR : ProcEvent.replacePolicy ∉ evs) :
    pidMatches
      (runEvents
        (stepEvent (stepEvent st (ProcEvent.probe p)) (ProcEvent.fork p c))
        evs) c = true := by
  have h1 : stepEvent st (ProcEvent.probe p) =
      { st with approved := p :: st.approved } := by
    simp only [stepEvent, hp, hff, Bool.and_self, if_pos]
  have h2 : stepEvent (stepEvent st (ProcEvent.probe p)) (ProcEvent.fork p c) =
      { st with approved := c :: p :: st.approved } := by
    rw [h1]
    simp only [stepEvent, hff, Bool.true_and]
    rw [if_pos]
    exact List.elem_eq_true_of_mem (List.mem_cons_self p st.approved)
  rw [h2]
  have hmem : c ∈ (runEvents { st with approved := c :: p :: st.approved } evs).approved :=
    runEvents_approved_mono evs _ hnoR c (List.mem_cons_self c _)
  have hf : (runEvents { st with approved := c :: p :: st.approved } evs).followForks = true := by
    rw [runEvents_followForks]
    exact hff
  unfold pidMatches
  rw [hf]
  have hcontains :
      (runEvents { st with approved := c :: p :: st.approved } evs).approved.contains c
        = true :=
    List.elem_eq_true_of_mem hmem
  rw [hcontains]
  simp

/-- Witness for C7: pid 7 is in the value list, matches, forks child 8;
after further unrelated events child 8 still matches although 8 is not in
the value list. -/
theorem followForks_descendant_matches_witness :
    pidMatches
      (runEvents
        (stepEvent
          (stepEvent { pidValues := [7], followForks := true, approved := [] }
            (ProcEvent.probe 7))
          (ProcEvent.fork 7 8))
        [ProcEvent.probe 3, ProcEvent.fork 8 9]) 8 = true :=
  followForks_descendant_matches
    { pidValues := [7], followForks := true, approved := [] } 7 8
    [ProcEvent.probe 3, ProcEvent.fork 8 9] rfl (by decide) (by decide)

end Tetragon
